import Mathlib

/-!
Shallow embedding of `build.py` (Piracola/Browser-builder): a pipeline that
downloads a browser installer, extracts it, injects portability files and
packages the result.  Filesystem state is modelled as association lists from
file names to contents; effectful control flow as explicit traces.
-/

namespace BrowserBuild

/-- ASCII lower-casing of one character, as Python `str.lower` acts on the
ASCII identifiers this program deals with. -/
def lowerChar (c : Char) : Char :=
  if 65 ≤ c.toNat ∧ c.toNat ≤ 90 then Char.ofNat (c.toNat + 32) else c

/-- `s.lower()` on ASCII strings (`String.data` is the character list). -/
def lowerStr (s : String) : String := ⟨s.data.map lowerChar⟩

/-! ## Builder construction (`BrowserBuilder.__init__`) -/

/-- First binding of a name in an association list. -/
def lookupName {α : Type} (fs : List (String × α)) (n : String) : Option α :=
  match fs with
  | [] => none
  | (k, v) :: t => if k = n then some v else lookupName t n


/-- Per-browser configuration table: `self.browser_configs`, keyed by
lower-cased browser name, value is the configured `exe_name`. -/
def browser_configs : List (String × String) :=
  [("firefox", "firefox.exe"), ("floorp", "floorp.exe"), ("zen", "zen.exe")]

/-- The immutable per-run configuration assembled by `__init__`. -/
structure BuilderConfig where
  browser_name : String
  exe_name : String
  installer_name : String
  deriving Repr, DecidableEq

/-- `BrowserBuilder.__init__`: computes `installer_name` from the lower-cased
browser name and raises `ValueError` when the lower-cased name is not a key of
`browser_configs`. -/
def browserBuilderInit (browser : String) : Except String BuilderConfig :=
  match lookupName browser_configs (lowerStr browser) with
  | some exe =>
      .ok { browser_name := browser
            exe_name := exe
            installer_name := lowerStr browser ++ "_installer.exe" }
  | none => .error ("Unsupported browser: " ++ browser)

/-- `create_archive`: `archive_name = f"{self.browser_name}_Portable_{self.version}.7z"`
(original casing of the browser name). -/
def archive_name (browser_name version : String) : String :=
  browser_name ++ "_Portable_" ++ version ++ ".7z"

example : (browserBuilderInit "Firefox").isOk = true := by decide
example : (browserBuilderInit "chrome").isOk = false := by decide
example : (browserBuilderInit "Firefox").toOption =
    some { browser_name := "Firefox", exe_name := "firefox.exe",
           installer_name := "firefox_installer.exe" } := by decide

/-! ## Flat directory model

A directory is an association list from file names to file contents; the
first binding of a name is the live one. -/

/-- A directory: file name to file content. -/
abbrev FS := List (String × String)

/-- Delete a name from a directory (`Path.unlink`, best effort). -/
def fsRemove (fs : FS) (n : String) : FS := fs.filter (fun p => p.1 ≠ n)

/-- Create or overwrite a file (`shutil.copy2` semantics by name). -/
def fsSet (fs : FS) (n c : String) : FS := (n, c) :: fsRemove fs n

/-- `Path.exists` for a name in a directory. -/
def fsExists (fs : FS) (n : String) : Bool := (lookupName fs n).isSome

/-- `shutil.move src dst` inside one directory: delete `src`, rebind its
content (if any) under `dst`, overwriting `dst`. -/
def fsMove (fs : FS) (src dst : String) : FS :=
  match lookupName fs src with
  | some c => fsSet (fsRemove fs src) dst c
  | none => fs

/-! ## Downloader (`BrowserBuilder.download`) -/

/-- `requests.iter_content(chunk_size=8192)`: the payload split into chunks
of at most 8192 bytes. -/
def iter_content (l : List Nat) : List (List Nat) :=
  if h : l = [] then [] else l.take 8192 :: iter_content (l.drop 8192)
termination_by l.length
decreasing_by
  simp only [List.length_drop]
  have hp : 0 < l.length := List.length_pos.mpr h
  omega

/-- State touched by `download`: files of `temp_dir` (name to byte content)
and a counter of HTTP requests issued. -/
structure DownloadSt where
  files : List (String × List Nat)
  httpCalls : Nat
  deriving Repr, DecidableEq

/-- `BrowserBuilder.download`: when the installer file already exists the
path is returned with no request; otherwise the remote payload is streamed
chunk by chunk into the file and one request is issued. -/
def download (st : DownloadSt) (installer_name : String) (remote : List Nat) :
    DownloadSt × String :=
  if (lookupName st.files installer_name).isSome then (st, installer_name)
  else
    ({ files := (installer_name, (iter_content remote).flatten) :: st.files
       httpCalls := st.httpCalls + 1 }, installer_name)

theorem iter_content_flatten (l : List Nat) : (iter_content l).flatten = l := by
  induction l using iter_content.induct with
  | case1 => simp [iter_content]
  | case2 l h ih =>
      rw [iter_content, dif_neg h, List.flatten_cons, ih, List.take_append_drop]

theorem iter_content_chunk_le (l c : List Nat) (hc : c ∈ iter_content l) :
    c.length ≤ 8192 := by
  induction l using iter_content.induct with
  | case1 => simp [iter_content] at hc
  | case2 l h ih =>
      rw [iter_content, dif_neg h] at hc
      rcases List.mem_cons.mp hc with h1 | h1
      · subst h1; simpa using List.length_take_le 8192 l
      · exact ih h1

/-! ## Extractor: application-directory discovery (`BrowserBuilder.extract`) -/

/-- One step of `os.walk(extract_dir)`: a directory path, the names of its
subdirectories and the names of its plain files. -/
structure WalkEntry where
  dir : String
  subdirs : List String
  files : List String
  deriving Repr, DecidableEq

/-- `(extract_dir / "core").exists()`: true when the root of the walk has an
entry (directory or plain file) named `core`.  The head of the walk list is
the scratch root. -/
def coreEntryExists (walk : List WalkEntry) : Bool :=
  match walk with
  | [] => false
  | root :: _ => root.subdirs.contains "core" || root.files.contains "core"

/-- The `source_core` selection of `extract`: prefer `extract_dir / "core"`
when it exists; otherwise the first directory of the walk whose file list
contains `exe_name` (exact string membership, `if exe_name in files`); else
the scratch root `extract_dir` itself. -/
def find_source_core (extract_dir : String) (walk : List WalkEntry)
    (exe_name : String) : String :=
  if coreEntryExists walk then extract_dir ++ "/core"
  else
    match walk.find? (fun e => e.files.contains exe_name) with
    | some e => e.dir
    | none => extract_dir

/-! ## Injector (`BrowserBuilder.inject`) -/

/-- Glob match for the two cleanup patterns: `pre*.exe`-style — the name
starts with `pre`, ends with `suf`, and is long enough that the starred
middle part does not overlap. -/
def globMatch (pre suf name : String) : Bool :=
  pre.data.isPrefixOf name.data && suf.data.isSuffixOf name.data &&
    pre.length + suf.length ≤ name.length

/-- Step 1 of `inject`: copy every plain file of the libportable set into the
application directory, overwriting by name. -/
def copyAll (src dst : FS) : FS := src.foldl (fun acc p => fsSet acc p.1 p.2) dst

/-- Outcome of the injection stage on the directory contents: either the
helper ran (cleanup and config materialization included) or execution was
skipped because no helper variant existed. -/
inductive InjectOutcome where
  | executed (fs : FS)
  | skipped (fs : FS)
  deriving Repr, DecidableEq

/-- Helper-binary normalization, `inject` step 2: move `upcheck64.exe` to
`upcheck.exe` when present; then, when `upcheck.exe` is still missing, move
`upcheck32.exe` to it when present, else return early (skip). -/
def normalize_upcheck (fs : FS) : InjectOutcome :=
  let fs1 := if fsExists fs "upcheck64.exe"
             then fsMove fs "upcheck64.exe" "upcheck.exe" else fs
  if fsExists fs1 "upcheck.exe" then .executed fs1
  else if fsExists fs1 "upcheck32.exe"
       then .executed (fsMove fs1 "upcheck32.exe" "upcheck.exe")
  else .skipped fs1

/-- `inject` step 3: delete every `upcheck*.exe`, every `setdll*.exe`, then
`portable32.dll` and `upcheck32.exe` when present. -/
def inject_cleanup (fs : FS) : FS :=
  let fs1 := fs.filter (fun p => !globMatch "upcheck" ".exe" p.1)
  let fs2 := fs1.filter (fun p => !globMatch "setdll" ".exe" p.1)
  let fs3 := fsRemove fs2 "portable32.dll"
  fsRemove fs3 "upcheck32.exe"

/-- `inject` step 4: copy `portable(example).ini` to `portable.ini` only when
the example exists and the live config does not. -/
def materialize_ini (fs : FS) : FS :=
  if fsExists fs "portable(example).ini" && !fsExists fs "portable.ini" then
    match lookupName fs "portable(example).ini" with
    | some c => fsSet fs "portable.ini" c
    | none => fs
  else fs

/-- `inject` after the libportable copy: normalization, then — only when a
canonical helper exists — helper execution (which leaves the name set
unchanged), cleanup and config materialization.  The early `return` of the
skip branch bypasses cleanup and materialization. -/
def inject_after_copy (fs : FS) : InjectOutcome :=
  match normalize_upcheck fs with
  | .skipped fs1 => .skipped fs1
  | .executed fs1 => .executed (materialize_ini (inject_cleanup fs1))

/-- The whole injection stage on directory contents: copy the libportable
files in, then normalize/execute/clean. -/
def inject (libFiles appDir : FS) : InjectOutcome :=
  inject_after_copy (copyAll libFiles appDir)

/-! ## Archive-tool invocation (`extract` lines 127-136, `create_archive`) -/

/-- The hard-coded conventional install location of the archive tool. -/
def seven_z_path : String := "C:\\Program Files\\7-Zip\\7z.exe"

/-- External facts the 7z fallback logic branches on: whether running the
bare command name succeeds (found on `PATH` and exit 0), whether the
hard-coded location exists on disk, and whether invoking it succeeds. -/
structure ToolEnv where
  bareInvokeOk : Bool
  hardcodedExists : Bool
  hardcodedInvokeOk : Bool
  deriving Repr, DecidableEq

/-- Result of one attempt to run the archive tool. -/
inductive ToolResult where
  | invoked (cmd : String)
  | raised (msg : String)
  deriving Repr, DecidableEq

/-- The 7z logic of `extract`: try the bare `7z`; on `FileNotFoundError` or
`CalledProcessError` fall back to the hard-coded path when it exists on disk
(its own failure propagates), and raise `RuntimeError` when it does not. -/
def extract_run_7z (env : ToolEnv) : ToolResult :=
  if env.bareInvokeOk then .invoked "7z"
  else if env.hardcodedExists then
    if env.hardcodedInvokeOk then .invoked seven_z_path
    else .raised "CalledProcessError"
  else .raised "7z executable not found. Please install 7-Zip."

/-- The 7z logic of `create_archive`: try the bare `7z`; on failure run the
hard-coded path unconditionally, without an existence check, so a missing
tool surfaces as `FileNotFoundError` from that second invocation. -/
def create_archive_run_7z (env : ToolEnv) : ToolResult :=
  if env.bareInvokeOk then .invoked "7z"
  else if env.hardcodedExists then
    if env.hardcodedInvokeOk then .invoked seven_z_path
    else .raised "CalledProcessError"
  else .raised "FileNotFoundError"

/-! ## Version and URL resolution (`BrowserBuilder.fetch_latest_version`)

Optional CLI strings are modelled as `Option String` with `none` for the
falsy values (absent or empty). -/

/-- Result of the upstream release API for Firefox:
`LATEST_FIREFOX_VERSION`, or `none` when the request fails. -/
def firefox_installer_url (v : String) : String :=
  "https://download-installer.cdn.mozilla.net/pub/firefox/releases/" ++ v ++
    "/win64/en-US/Firefox%20Setup%20" ++ v ++ ".exe"

/-- Trace of `fetch_latest_version` for the Firefox branch: whether the
release API was consulted, and the resulting `(version, url)` pair or an
error.  The early `return` fires only when version AND url are both set;
otherwise both fields are overwritten from the API answer. -/
structure FetchOutcome where
  consultedApi : Bool
  result : Option (String × String)
  deriving Repr, DecidableEq

/-- `fetch_latest_version`, Firefox branch.  `latest` is the version the
Mozilla API would report (`none` = request raises). -/
def fetch_latest_version_firefox (version url : Option String)
    (latest : Option String) : FetchOutcome :=
  match version, url with
  | some v, some u => { consultedApi := false, result := some (v, u) }
  | _, _ =>
      match latest with
      | none => { consultedApi := true, result := none }
      | some lv =>
          { consultedApi := true, result := some (lv, firefox_installer_url lv) }

/-! ## Release check and orchestration (`check_remote_release`, `run`,
`__main__`) -/

/-- Outcome of `check_remote_release`: either `sys.exit(0)` or fall through
and proceed with the build. -/
inductive CheckOutcome where
  | exitZero
  | proceed
  deriving Repr, DecidableEq

/-- `check_remote_release`: skipped (proceed) when `GITHUB_REPOSITORY` or
`GITHUB_TOKEN` is unset, or no version is resolved; otherwise a GET of the
release-by-tag endpoint: status 200 exits with code 0, status 404 proceeds,
any other status or a request exception logs a warning and proceeds. -/
def check_remote_release (repo token version : Option String)
    (status : Option Nat) : CheckOutcome :=
  match repo, token with
  | some _, some _ =>
      match version with
      | none => .proceed
      | some _ =>
          match status with
          | some s => if s = 200 then .exitZero else .proceed
          | none => .proceed
  | _, _ => .proceed

/-- Observable effects of one invocation of the program. -/
inductive Effect where
  | fetchVersionEff
  | releaseCheckEff
  | downloadEff
  | extractEff
  | injectEff
  | addLauncherEff
  | archiveEff
  | removeTempDirEff
  | exitCodeEff (n : Nat)
  deriving Repr, DecidableEq

/-- Environment of one run: which stages would succeed, and the inputs of
the release check. -/
structure RunEnv where
  fetchOk : Bool
  repo : Option String
  token : Option String
  version : Option String
  releaseStatus : Option Nat
  downloadOk : Bool
  extractOk : Bool
  libportableExists : Bool
  injectLaunchOk : Bool
  archiveOk : Bool
  deriving Repr, DecidableEq

/-- The `__main__` block around `BrowserBuilder.run`: `fetch_latest_version`,
`check_remote_release` (which may `sys.exit(0)`), `download`, `extract`,
`inject` (whose first statement raises when the libportable path is missing,
before mutating anything), then `add_launcher` and `create_archive`; any
exception is caught and turns into `sys.exit(1)`.  No temp-directory removal
appears anywhere. -/
def mainTrace (env : RunEnv) : List Effect :=
  [.fetchVersionEff] ++
  if env.fetchOk = false then [.exitCodeEff 1] else
  [.releaseCheckEff] ++
  match check_remote_release env.repo env.token env.version env.releaseStatus with
  | .exitZero => [.exitCodeEff 0]
  | .proceed =>
    [.downloadEff] ++
    if env.downloadOk = false then [.exitCodeEff 1] else
    [.extractEff] ++
    if env.extractOk = false then [.exitCodeEff 1] else
    if env.libportableExists = false then [.exitCodeEff 1] else
    [.injectEff] ++
    if env.injectLaunchOk = false then [.exitCodeEff 1] else
    [.addLauncherEff, .archiveEff] ++
    if env.archiveOk = false then [.exitCodeEff 1] else [.exitCodeEff 0]

/-! ## Association-list lemmas -/

theorem lookupName_fsRemove_self (fs : FS) (n : String) :
    lookupName (fsRemove fs n) n = none := by
  induction fs with
  | nil => rfl
  | cons p t ih =>
      rcases p with ⟨a, c⟩
      by_cases h : a = n
      · simpa [fsRemove, List.filter_cons, h] using ih
      · simpa [fsRemove, List.filter_cons, h, lookupName] using ih

theorem lookupName_fsRemove_ne (fs : FS) (n m : String) (h : m ≠ n) :
    lookupName (fsRemove fs n) m = lookupName fs m := by
  induction fs with
  | nil => rfl
  | cons p t ih =>
      rcases p with ⟨a, c⟩
      by_cases ha : a = n
      · simpa [fsRemove, List.filter_cons, ha, lookupName, Ne.symm h] using ih
      · by_cases ham : a = m
        · simp [fsRemove, List.filter_cons, ha, lookupName, ham, h]
        · simpa [fsRemove, List.filter_cons, ha, lookupName, ham] using ih

theorem lookupName_fsSet_self (fs : FS) (n c : String) :
    lookupName (fsSet fs n c) n = some c := by
  simp [fsSet, lookupName]

theorem lookupName_fsSet_ne (fs : FS) (n c m : String) (h : m ≠ n) :
    lookupName (fsSet fs n c) m = lookupName fs m := by
  have hne : n ≠ m := fun hnm => h hnm.symm
  simp [fsSet, lookupName, hne, lookupName_fsRemove_ne fs n m h]

theorem mem_fsRemove (fs : FS) (n : String) (p : String × String)
    (h : p ∈ fsRemove fs n) : p ∈ fs :=
  List.mem_of_mem_filter h

theorem mem_fsSet (fs : FS) (n c : String) (p : String × String)
    (h : p ∈ fsSet fs n c) : p = (n, c) ∨ p ∈ fs := by
  rcases List.mem_cons.mp h with h1 | h1
  · exact Or.inl h1
  · exact Or.inr (mem_fsRemove fs n p h1)

/-! ## Claim theorems -/

/-- C6: the download operation is idempotent — when a file already occupies
the expected installer destination, `download` returns that path with the
state (files and HTTP-request count) unchanged; only when the file is absent
does it issue one request and write the remote payload, streamed in chunks of
at most 8192 bytes whose concatenation is exactly the remote payload. -/
theorem C6_download_idempotent (st : DownloadSt) (name : String)
    (remote : List Nat) :
    ((lookupName st.files name).isSome = true →
        download st name remote = (st, name)) ∧
    (lookupName st.files name = none →
        lookupName (download st name remote).1.files name =
          some (iter_content remote).flatten ∧
        (iter_content remote).flatten = remote ∧
        (download st name remote).1.httpCalls = st.httpCalls + 1 ∧
        ∀ c ∈ iter_content remote, c.length ≤ 8192) := by
  constructor
  · intro h
    simp [download, h]
  · intro h
    refine ⟨?_, iter_content_flatten remote, ?_, fun c hc =>
      iter_content_chunk_le remote c hc⟩ <;>
      simp [download, h, lookupName]

/-- Closed instance of C6: with the installer already present, `download`
leaves the state untouched. -/
theorem C6_download_idempotent_witness :
    download ⟨[("firefox_installer.exe", [7, 7])], 0⟩ "firefox_installer.exe"
        [1, 2, 3] =
      (⟨[("firefox_installer.exe", [7, 7])], 0⟩, "firefox_installer.exe") :=
  (C6_download_idempotent ⟨[("firefox_installer.exe", [7, 7])], 0⟩
      "firefox_installer.exe" [1, 2, 3]).1 (by decide)

/-- The directory contents carried by an injection outcome. -/
def InjectOutcome.contents : InjectOutcome → FS
  | .executed fs => fs
  | .skipped fs => fs

/-- Whether the injection outcome ran the helper. -/
def InjectOutcome.ranHelper : InjectOutcome → Bool
  | .executed _ => true
  | .skipped _ => false

/-- C7: helper-binary normalization — a 64-bit-suffixed helper is renamed to
the canonical name and its content wins over any 32-bit variant; when only a
32-bit variant exists (no 64-bit, no canonical) it is the one renamed; when
no variant and no canonical helper exist, the stage returns early as skipped,
leaving the directory unchanged and raising nothing. -/
theorem C7_helper_normalization (fs : FS) :
    (fsExists fs "upcheck64.exe" = true →
        (normalize_upcheck fs).ranHelper = true ∧
        lookupName (normalize_upcheck fs).contents "upcheck.exe" =
          lookupName fs "upcheck64.exe") ∧
    (fsExists fs "upcheck64.exe" = false → fsExists fs "upcheck.exe" = false →
     fsExists fs "upcheck32.exe" = true →
        (normalize_upcheck fs).ranHelper = true ∧
        lookupName (normalize_upcheck fs).contents "upcheck.exe" =
          lookupName fs "upcheck32.exe") ∧
    (fsExists fs "upcheck64.exe" = false → fsExists fs "upcheck.exe" = false →
     fsExists fs "upcheck32.exe" = false →
        inject_after_copy fs = .skipped fs) := by
  refine ⟨?_, ?_, ?_⟩
  · intro h64
    rcases Option.isSome_iff_exists.mp h64 with ⟨c, hc⟩
    have hmoved : lookupName (fsMove fs "upcheck64.exe" "upcheck.exe")
        "upcheck.exe" = some c := by
      simp [fsMove, hc, lookupName_fsSet_self]
    have hex : fsExists (fsMove fs "upcheck64.exe" "upcheck.exe")
        "upcheck.exe" = true := by
      simp [fsExists, hmoved]
    simp [normalize_upcheck, fsExists, hc, hex, InjectOutcome.ranHelper,
      InjectOutcome.contents] at hex ⊢
    simp [hmoved, hc]
  · intro h64 hcan h32
    have h64n : lookupName fs "upcheck64.exe" = none := by
      simpa [fsExists, Option.isSome_iff_exists] using h64
    rcases Option.isSome_iff_exists.mp h32 with ⟨c, hc⟩
    simp only [normalize_upcheck, fsExists, h64n, Option.isSome_none,
      Bool.false_eq_true, if_false, hcan]
    simp [fsExists, h64n, hcan, hc, fsMove, lookupName_fsSet_self,
      InjectOutcome.ranHelper, InjectOutcome.contents,
      Bool.not_eq_true] at hcan ⊢
    simp [hcan, hc, lookupName_fsSet_self]
  · intro h64 hcan h32
    have h64n : lookupName fs "upcheck64.exe" = none := by
      simpa [fsExists, Option.isSome_iff_exists] using h64
    simp [inject_after_copy, normalize_upcheck, fsExists, h64n, hcan, h32,
      Bool.not_eq_true] at hcan h32 ⊢
    simp [hcan, h32]

/-- Closed instance of C7: with both variants present, the 64-bit helper is
the one that becomes `upcheck.exe`. -/
theorem C7_helper_normalization_witness :
    (normalize_upcheck
        [("upcheck64.exe", "a64"), ("upcheck32.exe", "a32")]).ranHelper =
      true ∧
    lookupName (normalize_upcheck
        [("upcheck64.exe", "a64"), ("upcheck32.exe", "a32")]).contents
        "upcheck.exe" =
      lookupName [("upcheck64.exe", "a64"), ("upcheck32.exe", "a32")]
        "upcheck64.exe" :=
  (C7_helper_normalization
      [("upcheck64.exe", "a64"), ("upcheck32.exe", "a32")]).1 (by decide)

/-- No injection tooling left: no name matching `upcheck*.exe`, none matching
`setdll*.exe`, and no `portable32.dll`. -/
def noInjectionTooling (fs : FS) : Bool :=
  fs.all (fun p => !globMatch "upcheck" ".exe" p.1 &&
    !globMatch "setdll" ".exe" p.1 && p.1 != "portable32.dll")

/-- C1 counterexample: when no helper variant exists, `inject` returns from
the skip branch before the cleanup block, so a `setdll.exe` patch tool and
the `portable32.dll` support library brought in by the libportable copy both
remain in the application directory. -/
theorem C1_counterexample :
    inject [("setdll.exe", "s"), ("portable32.dll", "p")] [] =
      .skipped [("portable32.dll", "p"), ("setdll.exe", "s")] ∧
    globMatch "setdll" ".exe" "setdll.exe" = true ∧
    noInjectionTooling [("portable32.dll", "p"), ("setdll.exe", "s")] =
      false := by decide

/-- C1 amended: cleanup is guaranteed only when the helper actually ran —
then no `upcheck*.exe`, no `setdll*.exe` and no `portable32.dll` remains;
when injection is skipped because no helper variant existed, the stage
returns before the cleanup block and the directory is exactly the post-copy
contents, tooling included. -/
theorem C1_injection_cleanup (fs fsOut : FS) :
    (inject_after_copy fs = .executed fsOut →
        noInjectionTooling fsOut = true) ∧
    (inject_after_copy fs = .skipped fsOut → fsOut = fs) := by
  constructor
  · intro hex
    have hfs : ∃ fs1, fsOut = materialize_ini (inject_cleanup fs1) := by
      unfold inject_after_copy at hex
      rcases hnorm : normalize_upcheck fs with fs1 | fs1 <;> rw [hnorm] at hex
      · exact ⟨fs1, by injection hex with h; exact h.symm⟩
      · cases hex
    rcases hfs with ⟨fs1, rfl⟩
    rw [noInjectionTooling, List.all_eq_true]
    intro p hp
    have hclean : ∀ q : String × String, q ∈ inject_cleanup fs1 →
        globMatch "upcheck" ".exe" q.1 = false ∧
        globMatch "setdll" ".exe" q.1 = false ∧ q.1 ≠ "portable32.dll" := by
      intro q hq
      unfold inject_cleanup at hq
      have hq3 := mem_fsRemove _ _ _ hq
      have hq2 := mem_fsRemove _ _ _ hq3
      have hq1 := List.mem_filter.mp hq2
      have hq0 := List.mem_filter.mp hq1.1
      refine ⟨by simpa using hq0.2, by simpa using hq1.2, ?_⟩
      intro hname
      have : ¬ (q.1 = "portable32.dll") := by
        intro hh
        have := List.mem_filter.mp (List.mem_filter.mp
          (mem_fsRemove _ _ _ hq3) |>.1)
        exact absurd hq (by
          intro hmem
          have := (List.mem_filter.mp (show q ∈ _ from hq3)).2
          simp [hh] at this)
      exact this hname
    unfold materialize_ini at hp
    by_cases hcase : (fsExists (inject_cleanup fs1) "portable(example).ini" &&
        !fsExists (inject_cleanup fs1) "portable.ini") = true
    · rw [if_pos hcase] at hp
      rcases hmm : lookupName (inject_cleanup fs1) "portable(example).ini" with
        _ | c <;> rw [hmm] at hp
      · have h := hclean p hp
        simp [h.1, h.2.1, h.2.2]
      · rcases mem_fsSet _ _ _ _ hp with h1 | h1
        · subst h1
          show (!globMatch "upcheck" ".exe" "portable.ini" &&
            !globMatch "setdll" ".exe" "portable.ini" &&
            "portable.ini" != "portable32.dll") = true
          decide
        · have h := hclean p h1
          simp [h.1, h.2.1, h.2.2]
    · rw [if_neg hcase] at hp
      have h := hclean p hp
      simp [h.1, h.2.1, h.2.2]
  · intro hsk
    unfold inject_after_copy at hsk
    rcases hnorm : normalize_upcheck fs with fs1 | fs1 <;> rw [hnorm] at hsk
    · cases hsk
    · injection hsk with h
      subst h
      unfold normalize_upcheck at hnorm
      by_cases h64 : fsExists fs "upcheck64.exe" = true
      · rcases Option.isSome_iff_exists.mp h64 with ⟨c, hc⟩
        have : fsExists (fsMove fs "upcheck64.exe" "upcheck.exe")
            "upcheck.exe" = true := by
          simp [fsExists, fsMove, hc, lookupName_fsSet_self]
        simp [h64, this] at hnorm
      · simp only [Bool.not_eq_true] at h64
        rw [h64] at hnorm
        simp only [if_false, Bool.false_eq_true] at hnorm
        by_cases hcan : fsExists fs "upcheck.exe" = true
        · simp [hcan] at hnorm
        · simp only [Bool.not_eq_true] at hcan
          rw [hcan] at hnorm
          by_cases h32 : fsExists fs "upcheck32.exe" = true
          · simp [h32] at hnorm
          · simp only [Bool.not_eq_true] at h32
            rw [h32] at hnorm
            simp at hnorm
            exact hnorm.symm

/-- Closed instance of the amended C1: a directory holding the canonical
helper and a patch tool comes out of the executed injection stage completely
stripped of tooling; and a skip-path run leaves its input untouched. -/
theorem C1_injection_cleanup_witness :
    noInjectionTooling [] = true ∧
    ([("other.txt", "o")] : FS) = [("other.txt", "o")] :=
  ⟨(C1_injection_cleanup [("upcheck.exe", "u"), ("setdll.exe", "s")] []).1
      (by decide),
   (C1_injection_cleanup [("other.txt", "o")] [("other.txt", "o")]).2
      (by decide)⟩

/-- `List.find?` returns the first element satisfying the predicate: the list
splits at the returned element and everything before it fails the test. -/
theorem find_eq_first {α : Type} (p : α → Bool) (l : List α) (e : α)
    (h : l.find? p = some e) :
    p e = true ∧ ∃ l1 l2, l = l1 ++ e :: l2 ∧ ∀ x ∈ l1, p x = false := by
  induction l with
  | nil => cases h
  | cons a t ih =>
      by_cases ha : p a = true
      · rw [List.find?_cons_of_pos _ ha] at h
        injection h with h
        subst h
        exact ⟨ha, [], t, rfl, by simp⟩
      · have han : p a = false := Bool.eq_false_iff.mpr ha
        rw [List.find?_cons_of_neg _ (by simp [han])] at h
        rcases ih h with ⟨he, l1, l2, hsplit, hall⟩
        refine ⟨he, a :: l1, l2, by simp [hsplit], ?_⟩
        intro x hx
        rcases List.mem_cons.mp hx with h1 | h1
        · subst h1; exact han
        · exact hall x h1

/-- The walk used by the discovery counterexample: the scratch root `X` with
one subdirectory `X/sub` whose only file differs from the configured
executable name just in letter case. -/
def c2walk : List WalkEntry :=
  [⟨"X", ["sub"], []⟩, ⟨"X/sub", [], ["FIREFOX.EXE"]⟩]

/-- C2 counterexample: there is no `core` entry and `X/sub` contains a file
matching the configured executable name case-insensitively, yet discovery
falls through to the scratch root because the code tests membership with an
exact case-sensitive string comparison. -/
theorem C2_counterexample :
    coreEntryExists c2walk = false ∧
    (⟨"X/sub", [], ["FIREFOX.EXE"]⟩ : WalkEntry) ∈ c2walk ∧
    lowerStr "FIREFOX.EXE" = lowerStr "firefox.exe" ∧
    find_source_core "X" c2walk "firefox.exe" = "X" ∧
    (("X" : String) == "X/sub") = false := by decide

/-- C2 amended: discovery follows the three-tier priority with tier (ii)
matching the configured executable name case-sensitively (exact string
membership): (i) a root entry named `core` wins; (ii) otherwise the first
walk entry whose files contain the exact executable name is selected;
(iii) otherwise the scratch root is returned.  Discovery is a total
function, so it never raises. -/
theorem C2_discovery_priority (extract_dir : String) (walk : List WalkEntry)
    (exe_name : String) :
    (coreEntryExists walk = true →
        find_source_core extract_dir walk exe_name = extract_dir ++ "/core") ∧
    (coreEntryExists walk = false →
      (∃ e ∈ walk, e.files.contains exe_name = true) →
      ∃ e l1 l2, walk = l1 ++ e :: l2 ∧ e.files.contains exe_name = true ∧
        (∀ x ∈ l1, x.files.contains exe_name = false) ∧
        find_source_core extract_dir walk exe_name = e.dir) ∧
    (coreEntryExists walk = false →
      (∀ e ∈ walk, e.files.contains exe_name = false) →
      find_source_core extract_dir walk exe_name = extract_dir) := by
  refine ⟨?_, ?_, ?_⟩
  · intro hcore
    simp [find_source_core, hcore]
  · intro hcore hex
    have hsome : (walk.find? (fun e => e.files.contains exe_name)).isSome :=
      by
      rw [List.find?_isSome]
      rcases hex with ⟨e, he, hmem⟩
      exact ⟨e, he, hmem⟩
    rcases Option.isSome_iff_exists.mp hsome with ⟨e, hfind⟩
    rcases find_eq_first _ _ _ hfind with ⟨hpe, l1, l2, hsplit, hall⟩
    refine ⟨e, l1, l2, hsplit, hpe, hall, ?_⟩
    unfold find_source_core
    rw [if_neg (by simp [hcore]), hfind]
  · intro hcore hnone
    have hfind : walk.find? (fun e => e.files.contains exe_name) = none := by
      rw [List.find?_eq_none]
      intro e he
      simpa using hnone e he
    unfold find_source_core
    rw [if_neg (by simp [hcore]), hfind]

/-- Closed instance of the amended C2: a `core` entry under the scratch root
wins even though another directory holds the executable. -/
theorem C2_discovery_priority_witness :
    find_source_core "X"
        [⟨"X", ["core"], []⟩, ⟨"X/sub", [], ["firefox.exe"]⟩]
        "firefox.exe" = "X" ++ "/core" :=
  (C2_discovery_priority "X"
      [⟨"X", ["core"], []⟩, ⟨"X/sub", [], ["firefox.exe"]⟩]
      "firefox.exe").1 (by decide)

/-- A run environment in which every stage succeeds and the release check is
skipped for lack of a repository identifier. -/
def allOkEnv : RunEnv :=
  { fetchOk := true, repo := none, token := none, version := some "1.0"
    releaseStatus := none, downloadOk := true, extractOk := true
    libportableExists := true, injectLaunchOk := true, archiveOk := true }

/-- C3 counterexample: a fully successful run produces the complete stage
trace and ends with exit code 0, yet contains no removal of the transient
working directory — the orchestrator never attempts it. -/
theorem C3_counterexample :
    mainTrace allOkEnv =
      [.fetchVersionEff, .releaseCheckEff, .downloadEff, .extractEff,
       .injectEff, .addLauncherEff, .archiveEff, .exitCodeEff 0] ∧
    (mainTrace allOkEnv).contains Effect.removeTempDirEff = false := by decide

/-- C3 amended: no run of the program — successful or failed — ever attempts
to remove the transient working directory; `temp_build` persists after every
outcome (so its handling indeed cannot change the success/failure outcome,
vacuously). -/
theorem C3_no_temp_cleanup (env : RunEnv) :
    (mainTrace env).contains Effect.removeTempDirEff = false := by
  obtain ⟨f, r, t, v, s, d, e, lp, inj, a⟩ := env
  unfold mainTrace
  cases f <;> cases hc : check_remote_release r t v s <;>
    cases d <;> cases e <;> cases lp <;> cases inj <;> cases a <;>
    simp_all

/-- C5: with the repository identifier and token environment variables both
present and a resolved version, an HTTP 200 from the release-lookup endpoint
terminates the run with exit code 0 immediately after the release check — no
download, extraction or injection effect occurs; a 404 or any non-200 status
or a failed request lets the build proceed. -/
theorem C5_release_short_circuit (env : RunEnv) (r t v : String)
    (hf : env.fetchOk = true) (hr : env.repo = some r)
    (ht : env.token = some t) (hv : env.version = some v) :
    (env.releaseStatus = some 200 →
        mainTrace env = [.fetchVersionEff, .releaseCheckEff, .exitCodeEff 0] ∧
        Effect.downloadEff ∉ mainTrace env ∧
        Effect.extractEff ∉ mainTrace env ∧
        Effect.injectEff ∉ mainTrace env) ∧
    (∀ s, s ≠ 200 →
        check_remote_release env.repo env.token env.version (some s) =
          .proceed) ∧
    check_remote_release env.repo env.token env.version none = .proceed := by
  refine ⟨?_, ?_, ?_⟩
  · intro h200
    have hcheck : check_remote_release env.repo env.token env.version
        env.releaseStatus = .exitZero := by
      rw [hr, ht, hv, h200]
      simp [check_remote_release]
    have htrace :
        mainTrace env = [.fetchVersionEff, .releaseCheckEff, .exitCodeEff 0] :=
      by
      unfold mainTrace
      rw [hf, hcheck]
      simp
    refine ⟨htrace, ?_, ?_, ?_⟩ <;> rw [htrace] <;> decide
  · intro s hs
    rw [hr, ht, hv]
    simp [check_remote_release, hs]
  · rw [hr, ht, hv]
    simp [check_remote_release]

/-- Closed instance of C5: a concrete 200 response short-circuits the run. -/
theorem C5_release_short_circuit_witness :
    mainTrace { fetchOk := true, repo := some "o/r", token := some "tk"
                version := some "130.0", releaseStatus := some 200
                downloadOk := true, extractOk := true
                libportableExists := true, injectLaunchOk := true
                archiveOk := true } =
      [.fetchVersionEff, .releaseCheckEff, .exitCodeEff 0] :=
  ((C5_release_short_circuit
      { fetchOk := true, repo := some "o/r", token := some "tk"
        version := some "130.0", releaseStatus := some 200
        downloadOk := true, extractOk := true, libportableExists := true
        injectLaunchOk := true, archiveOk := true }
      "o/r" "tk" "130.0" rfl rfl rfl rfl).1 rfl).1

/-- The run environment of the C9 counterexample: everything in order except
that the libportable directory is missing. -/
def missingLibEnv : RunEnv :=
  { fetchOk := true, repo := none, token := none, version := some "1.0"
    releaseStatus := none, downloadOk := true, extractOk := true
    libportableExists := false, injectLaunchOk := true, archiveOk := true }

/-- C9 counterexample: with the libportable path missing, the run still
performs the download and extraction stages and only then aborts with exit
code 1 — the missing mandatory input is not detected before those side
effects, contrary to the claim. -/
theorem C9_counterexample :
    mainTrace missingLibEnv =
      [.fetchVersionEff, .releaseCheckEff, .downloadEff, .extractEff,
       .exitCodeEff 1] ∧
    (mainTrace missingLibEnv).contains Effect.downloadEff = true ∧
    (mainTrace missingLibEnv).contains Effect.extractEff = true := by decide

/-- C9 amended: a missing libportable directory is fatal, but it is detected
at the start of the injection stage — after the download and extraction side
effects have already happened and before the directory is mutated — and the
run then exits with code 1. -/
theorem C9_missing_libportable (env : RunEnv) (hf : env.fetchOk = true)
    (hc : check_remote_release env.repo env.token env.version
        env.releaseStatus = .proceed)
    (hd : env.downloadOk = true) (he : env.extractOk = true)
    (hl : env.libportableExists = false) :
    mainTrace env =
      [.fetchVersionEff, .releaseCheckEff, .downloadEff, .extractEff,
       .exitCodeEff 1] ∧
    Effect.injectEff ∉ mainTrace env := by
  have htrace : mainTrace env =
      [.fetchVersionEff, .releaseCheckEff, .downloadEff, .extractEff,
       .exitCodeEff 1] := by
    unfold mainTrace
    rw [hf, hc, hd, he, hl]
    simp
  refine ⟨htrace, ?_⟩
  rw [htrace]
  decide

/-- Closed instance of the amended C9. -/
theorem C9_missing_libportable_witness :
    mainTrace missingLibEnv =
      [.fetchVersionEff, .releaseCheckEff, .downloadEff, .extractEff,
       .exitCodeEff 1] :=
  (C9_missing_libportable missingLibEnv rfl rfl rfl rfl rfl).1

/-- C4 counterexample: with the bare `7z` failing and the hard-coded install
location absent, the extraction-stage fallback raises `RuntimeError` right
there — resolution is not raise-free and does not defer the error to a later
invocation of a bare-name candidate. -/
theorem C4_counterexample :
    extract_run_7z
        { bareInvokeOk := false, hardcodedExists := false
          hardcodedInvokeOk := false } =
      .raised "7z executable not found. Please install 7-Zip." := by decide

/-- C4 amended: there is no separate resolver and no configured explicit
tool path; each stage inlines the lookup — bare `7z` first, then the
hard-coded install location.  When both are unavailable, extraction raises
`RuntimeError` at lookup time, while archiving invokes the hard-coded path
unconditionally so the failure surfaces from that invocation
(`FileNotFoundError`). -/
theorem C4_tool_fallback (env : ToolEnv) :
    (env.bareInvokeOk = true →
        extract_run_7z env = .invoked "7z" ∧
        create_archive_run_7z env = .invoked "7z") ∧
    (env.bareInvokeOk = false → env.hardcodedExists = true →
     env.hardcodedInvokeOk = true →
        extract_run_7z env = .invoked seven_z_path ∧
        create_archive_run_7z env = .invoked seven_z_path) ∧
    (env.bareInvokeOk = false → env.hardcodedExists = false →
        extract_run_7z env =
          .raised "7z executable not found. Please install 7-Zip." ∧
        create_archive_run_7z env = .raised "FileNotFoundError") := by
  refine ⟨?_, ?_, ?_⟩
  · intro h
    constructor <;> simp [extract_run_7z, create_archive_run_7z, h]
  · intro h1 h2 h3
    constructor <;> simp [extract_run_7z, create_archive_run_7z, h1, h2, h3]
  · intro h1 h2
    constructor <;> simp [extract_run_7z, create_archive_run_7z, h1, h2]

/-- Closed instance of the amended C4: a working `7z` on the search path is
what both stages invoke. -/
theorem C4_tool_fallback_witness :
    extract_run_7z
        { bareInvokeOk := true, hardcodedExists := false
          hardcodedInvokeOk := false } = .invoked "7z" :=
  ((C4_tool_fallback
      { bareInvokeOk := true, hardcodedExists := false
        hardcodedInvokeOk := false }).1 rfl).1

/-- C8 counterexample: for Firefox, supplying a version without a URL is not
a configuration error — the run proceeds, the release API is consulted
although only the URL was missing, and both the version and the URL are
overwritten by the resolved values (the supplied version 130.0 is
discarded in favour of 131.0). -/
theorem C8_counterexample :
    fetch_latest_version_firefox (some "130.0") none (some "131.0") =
      { consultedApi := true
        result := some ("131.0", firefox_installer_url "131.0") } ∧
    (fetch_latest_version_firefox (some "130.0") none
        (some "131.0")).result.isSome = true ∧
    (("131.0" : String) == "130.0") = false := by decide

/-- C8 amended: when both version and URL are supplied they are used exactly
as given and the release source is never consulted; when either one (or
both) is missing, the release source is consulted and both values are
overwritten with the resolved ones — supplying exactly one is not an error;
the run only fails here when the release API itself fails. -/
theorem C8_version_url_resolution (version url latest : Option String) :
    (∀ v u, version = some v → url = some u →
        fetch_latest_version_firefox version url latest =
          { consultedApi := false, result := some (v, u) }) ∧
    ((version = none ∨ url = none) → ∀ lv, latest = some lv →
        fetch_latest_version_firefox version url latest =
          { consultedApi := true
            result := some (lv, firefox_installer_url lv) }) ∧
    ((version = none ∨ url = none) → latest = none →
        fetch_latest_version_firefox version url latest =
          { consultedApi := true, result := none }) := by
  refine ⟨?_, ?_, ?_⟩
  · intro v u hv hu
    rw [hv, hu]
    rfl
  · intro hmiss lv hl
    rcases hmiss with hm | hm <;> rw [hm, hl] <;>
      cases version <;> cases url <;> rfl
  · intro hmiss hl
    rcases hmiss with hm | hm <;> rw [hm, hl] <;>
      cases version <;> cases url <;> rfl

/-- Closed instance of the amended C8: version supplied, URL missing — the
API answer overwrites both. -/
theorem C8_version_url_resolution_witness :
    fetch_latest_version_firefox (some "130.0") none (some "131.0") =
      { consultedApi := true
        result := some ("131.0", firefox_installer_url "131.0") } :=
  (C8_version_url_resolution (some "130.0") none (some "131.0")).2.1
    (Or.inr rfl) "131.0" rfl

/-- C10 counterexample: the identifier `Firefox` is accepted, but the
installer filename is built from the lower-cased identifier, not the
original casing. -/
theorem C10_counterexample :
    (browserBuilderInit "Firefox").toOption =
      some { browser_name := "Firefox", exe_name := "firefox.exe",
             installer_name := "firefox_installer.exe" } ∧
    (("firefox_installer.exe" : String) == "Firefox" ++ "_installer.exe") =
      false := by decide

/-- C10 amended: construction succeeds exactly when the lower-cased
identifier is one of `firefox`, `floorp`, `zen` (raising the unsupported-
browser error otherwise, before any stage runs); the final archive name
preserves the original casing of the identifier, while the installer
filename uses the lower-cased identifier. -/
theorem browser_configs_mem (k : String) :
    (lookupName browser_configs k).isSome = true ↔
      (k = "firefox" ∨ k = "floorp" ∨ k = "zen") := by
  simp only [browser_configs, lookupName]
  split_ifs with h1 h2 h3 <;> simp_all [eq_comm]

theorem C10_browser_identifier (b v : String) :
    ((browserBuilderInit b).isOk = true ↔
        (lowerStr b = "firefox" ∨ lowerStr b = "floorp" ∨
         lowerStr b = "zen")) ∧
    (∀ cfg, (browserBuilderInit b).toOption = some cfg →
        cfg.browser_name = b ∧
        cfg.installer_name = lowerStr b ++ "_installer.exe") ∧
    archive_name b v = b ++ "_Portable_" ++ v ++ ".7z" := by
  refine ⟨?_, ?_, rfl⟩
  · rw [← browser_configs_mem]
    unfold browserBuilderInit
    rcases hlk : lookupName browser_configs (lowerStr b) with _ | exe <;>
      simp [hlk, Except.isOk, Except.toBool]
  · intro cfg hcfg
    unfold browserBuilderInit at hcfg
    rcases hlk : lookupName browser_configs (lowerStr b) with _ | exe <;>
      rw [hlk] at hcfg
    · simp [Except.toOption] at hcfg
    · simp only [Except.toOption, Option.some.injEq] at hcfg
      rw [← hcfg]
      exact ⟨rfl, rfl⟩

/-- Closed instance of the amended C10: mixed-case `FloorP` is accepted and
its installer filename is lower-cased. -/
theorem C10_browser_identifier_witness :
    (browserBuilderInit "FloorP").isOk = true :=
  ((C10_browser_identifier "FloorP" "1.0").1).mpr (Or.inr (Or.inl (by decide)))

end BrowserBuild
